import Mathlib

/-!
Verification of the compliance-checking and issue-reconciliation pipeline:
a shallow embedding of the rule engine (`adgm_analyzer.py`), the key
normalizer and applicability filter (`ai_agent.py`), the location resolver
and annotator (`document_processor.py`), and the reconciliation and
annotation stages of `analyze_files` (`main.py`), together with theorems
settling the specification claims.

All strings are modelled as Lean `String`s over their `List Char` data;
Python string operations (`lower`, `strip`, `in`, `split`, `find`,
`rfind`, slicing) are given explicit executable models.  The regular
expressions used by `normalize_issue_key` are fixed concrete patterns;
each is compiled by hand into a deterministic matcher with Python `re`
semantics (leftmost, non-overlapping, greedy) for exactly that pattern.
-/

/-! ### Python string primitives -/

/-- Python `str` whitespace (the characters matched by `\s` and stripped
by `str.strip()` for ASCII input): space, tab, newline, carriage return,
vertical tab, form feed. -/
def pyIsSpace (c : Char) : Bool :=
  c = ' ' || c = '\t' || c = '\n' || c = '\r' || c = '\x0b' || c = '\x0c'

/-- Python `str.lower` on a single character (ASCII range; all inputs in
this development are ASCII). -/
def pyLowerC (c : Char) : Char :=
  if 'A' ≤ c ∧ c ≤ 'Z' then Char.ofNat (c.toNat + 32) else c

/-- Python `str.upper` on a single character (ASCII range). -/
def pyUpperC (c : Char) : Char :=
  if 'a' ≤ c ∧ c ≤ 'z' then Char.ofNat (c.toNat - 32) else c

def pyLowerL (s : List Char) : List Char := s.map pyLowerC

def pyLower (s : String) : String := String.mk (pyLowerL s.toList)

def pyUpper (s : String) : String := String.mk (s.toList.map pyUpperC)

/-- Python `str.strip()` on character lists: drop leading and trailing
whitespace. -/
def pyStripL (s : List Char) : List Char :=
  ((s.dropWhile pyIsSpace).reverse.dropWhile pyIsSpace).reverse

def pyStrip (s : String) : String := String.mk (pyStripL s.toList)

/-- Python substring containment `needle in hay` on character lists:
`true` iff `needle` occurs contiguously in `hay` (the empty needle is
contained in everything). -/
def isSubL (n : List Char) : List Char → Bool
  | [] => n.isEmpty
  | c :: t => n.isPrefixOf (c :: t) || isSubL n t

/-- Python `needle in hay` for strings. -/
def pyIn (needle hay : String) : Bool := isSubL needle.toList hay.toList

/-! ### Regex substitution machinery for `normalize_issue_key`

`subAll m rep 0 s` is Python `re.sub(pat, rep, s)` where `m` is a
deterministic matcher for `pat`: at each position it either returns the
number of characters (≥ 1) consumed by the leftmost-greedy match starting
there, or `none`.  The `Nat` argument is the number of already-consumed
characters still to be skipped after a match, which keeps the recursion
structural on the list. -/

def subAll (m : List Char → Option Nat) (rep : List Char) : Nat → List Char → List Char
  | _, [] => []
  | 0, c :: cs =>
    match m (c :: cs) with
    | some k => rep ++ subAll m rep (k - 1) cs
    | none => c :: subAll m rep 0 cs
  | Nat.succ k, _ :: cs => subAll m rep k cs

/-- Matcher for a literal (regex-metacharacter-free) pattern. -/
def litMatch (pat : List Char) (s : List Char) : Option Nat :=
  if pat.isPrefixOf s then some pat.length else none

/-- Matcher for `signatories?`: greedy optional final `s`. -/
def sigMatch (s : List Char) : Option Nat :=
  if "signatories".toList.isPrefixOf s then some 11
  else if "signatorie".toList.isPrefixOf s then some 10
  else none

/-- Greedy `\.?`: consume a dot if present (safe here because in
`u\.?a\.?e\.?\s*federal court` the token after each optional dot can
never itself be a dot). -/
def optDot : List Char → Nat × List Char
  | '.' :: cs => (1, cs)
  | cs => (0, cs)

/-- Matcher for `u\.?a\.?e\.?\s*federal court`. -/
def matchUAE (s : List Char) : Option Nat :=
  match s with
  | 'u' :: r1 =>
    let p1 := optDot r1
    (match p1.2 with
     | 'a' :: r3 =>
       let p2 := optDot r3
       (match p2.2 with
        | 'e' :: r5 =>
          let p3 := optDot r5
          let w := (p3.2.takeWhile pyIsSpace).length
          let r7 := p3.2.dropWhile pyIsSpace
          if "federal court".toList.isPrefixOf r7 then
            some (3 + p1.1 + p2.1 + p3.1 + w + 13)
          else none
        | _ => none)
     | _ => none)
  | _ => none

/-- End offset (exclusive) of the last occurrence of `language` reachable
by `.*` (i.e. with no newline before its start), scanning from offset
`pos` with current best result `best`. -/
def lastLangEndGo : Nat → Option Nat → List Char → Option Nat
  | _, best, [] => best
  | pos, best, c :: cs =>
    let best2 := if "language".toList.isPrefixOf (c :: cs) then some (pos + 8) else best
    if c = '\n' then best2 else lastLangEndGo (pos + 1) best2 cs

/-- Matcher for `ambiguous.*language|non-binding`: Python alternation
tries the first branch at each position; `.*` is greedy and does not
cross newlines. -/
def matchAmb (s : List Char) : Option Nat :=
  if "ambiguous".toList.isPrefixOf s then
    match lastLangEndGo 0 none (s.drop 9) with
    | some e => some (9 + e)
    | none => if "non-binding".toList.isPrefixOf s then some 11 else none
  else if "non-binding".toList.isPrefixOf s then some 11 else none

/-- `re.sub(r"^(missing required clause|red flag)\s*:\s*", "", t)`:
anchored at the start, so at most one removal.  Returns the remainder
when the anchored pattern matches. -/
def tagRest (t : List Char) : Option (List Char) :=
  let kw :=
    if "missing required clause".toList.isPrefixOf t then
      some (t.drop 23)
    else if "red flag".toList.isPrefixOf t then
      some (t.drop 8)
    else none
  match kw with
  | none => none
  | some rest =>
    match rest.dropWhile pyIsSpace with
    | ':' :: r2 => some (r2.dropWhile pyIsSpace)
    | _ => none

def stripLeadingTag (t : List Char) : List Char :=
  match tagRest t with
  | some r => r
  | none => t

/-- `re.sub(r"[^a-z0-9\s]", " ", t)`: single-character class, hence a
character map. -/
def punctToSpace (c : Char) : Char :=
  if ('a' ≤ c ∧ c ≤ 'z') ∨ ('0' ≤ c ∧ c ≤ '9') ∨ pyIsSpace c = true then c else ' '

/-- Matcher for `\s+` (greedy maximal whitespace run). -/
def wsMatch (s : List Char) : Option Nat :=
  match s with
  | c :: _ => if pyIsSpace c then some (s.takeWhile pyIsSpace).length else none
  | [] => none

/-- The ordered phrase-to-token replacement list of `normalize_issue_key`
(`ai_agent.py` lines 120-130), applied by `re.sub` in listed order. -/
def applyReplacements (t0 : List Char) : List Char :=
  let t1 := subAll (litMatch "abu dhabi global market".toList) "adgm".toList 0 t0
  let t2 := subAll matchUAE "uae federal court".toList 0 t1
  let t3 := subAll (litMatch "registered address".toList) "registered address".toList 0 t2
  let t4 := subAll sigMatch "signatories".toList 0 t3
  let t5 := subAll (litMatch "jurisdiction".toList) "jurisdiction".toList 0 t4
  let t6 := subAll matchAmb "ambiguity".toList 0 t5
  subAll (litMatch "appears to be missing signatory section".toList) "signatories".toList 0 t6

/-- `normalize_issue_key` (`ai_agent.py` lines 108-134): lowercase and
strip; remove a leading `missing required clause:`/`red flag:` tag; apply
the replacement list; map characters outside `[a-z0-9\s]` to space;
collapse whitespace runs to single spaces; strip. -/
def normalize_issue_key (text : String) : String :=
  let t0 := pyStripL (pyLowerL text.toList)
  let t1 := stripLeadingTag t0
  let t2 := applyReplacements t1
  let t3 := t2.map punctToSpace
  let t4 := subAll wsMatch [' '] 0 t3
  String.mk (pyStripL t4)

/-! ### Document-type applicability filter (`ai_agent.py` lines 137-167) -/

def COMMON : List String := ["jurisdiction", "adgm", "ambiguity", "signatories"]

def AOA_KEYS : List String :=
  COMMON ++ ["company name", "objects", "share capital", "directors", "dividends"]

def MOA_KEYS : List String := COMMON ++ ["registered address", "objects", "share capital"]

def RES_KEYS : List String := COMMON ++ ["resolution approval", "authorized representative"]

def REG_KEYS : List String := COMMON ++ ["register", "members", "directors"]

def UBO_KEYS : List String := COMMON ++ ["ubo", "beneficial owner", "declaration"]

/-- `doc_type_accepts_issue_key` (`ai_agent.py` lines 137-167): an empty
normalized key is rejected; otherwise the key is accepted iff some token
of the document type's allow-list occurs as a substring of the key. -/
def doc_type_accepts_issue_key (doc_type issue_key : String) : Bool :=
  let dt := pyLower doc_type
  let k := pyLower issue_key
  if k = "" then false
  else
    let allow :=
      if pyIn "articles of association" dt then AOA_KEYS
      else if pyIn "memorandum of association" dt then MOA_KEYS
      else if pyIn "board resolution" dt then RES_KEYS
      else if pyIn "register of members and directors" dt then REG_KEYS
      else if pyIn "ubo" dt then UBO_KEYS
      else COMMON
    allow.any (fun tok => pyIn tok k)

/-! ### Rule engine (`adgm_analyzer.py`) -/

/-- The dict returned by `extract_text_and_sections`
(`document_processor.py` lines 7-41). -/
structure DocInfo where
  paragraphs : List String
  headings : List String
  full_text : String
deriving DecidableEq

/-- The rule-set dict loaded by `load_rules`.  `clauses_per_doc` is an
association list modelling the JSON object; a document type may be
absent (no pair) or bound to `none` (a JSON `null`). -/
structure Rules where
  clauses_per_doc : List (String × Option (List String))
  required_documents : List String
deriving DecidableEq

/-- `rules.get("clauses_per_doc", {}).get(doc_type, []) or []`
(`adgm_analyzer.py` lines 20-21): a missing or null (or empty) entry
degrades to the empty clause list. -/
def requiredClausesOf (rules : Rules) (doc_type : String) : List String :=
  match rules.clauses_per_doc.find? (fun p => p.1 = doc_type) with
  | none => []
  | some (_, none) => []
  | some (_, some l) => l

/-- `check_required_clauses` (`adgm_analyzer.py` lines 13-30): for each
required clause, strip it, skip it when empty, and report it (stripped)
when its lowercased form does not occur in the lowercased full text. -/
def check_required_clauses (doc_info : DocInfo) (doc_type : String) (rules : Rules) : List String :=
  let text := pyLower doc_info.full_text
  (requiredClausesOf rules doc_type).foldl
    (fun missing clause =>
      let key := pyStrip clause
      if key = "" then missing
      else if pyIn (pyLower key) text then missing
      else missing ++ [key])
    []

/-- Modelled from the spec: the claim C3 reading of `checkRequiredClauses`,
"exactly those required-clause keywords of the document type whose
lowercased form does not occur as a substring of the lowercased full
text, in rule-set order" — stated over the raw keywords, with no
stripping.  Used only to compare with `check_required_clauses`. -/
def check_required_clauses_spec (doc_info : DocInfo) (doc_type : String) (rules : Rules) : List String :=
  (requiredClausesOf rules doc_type).filter
    (fun kw => !(pyIn (pyLower kw) (pyLower doc_info.full_text)))

/-- A red-flag dict `{issue, severity, match}`; the Python key `match`
is a Lean keyword and is rendered as `matchText`. -/
structure RedFlag where
  issue : String
  severity : String
  matchText : String
deriving DecidableEq

def ambiguous_markers : List String :=
  ["may consider", "where possible", "as appropriate", "at its discretion"]

def jurisFlag : RedFlag :=
  { issue := "References UAE Federal Court instead of ADGM"
    severity := "High"
    matchText := "UAE Federal Court" }

def ambFlag : RedFlag :=
  { issue := "Ambiguous or non-binding language"
    severity := "Medium"
    matchText := "may consider; where possible; as appropriate; at its discretion" }

def sigFlag : RedFlag :=
  { issue := "Appears to be missing signatory section"
    severity := "High"
    matchText := "signature" }

def requires_signature : List String :=
  ["Articles of Association", "Memorandum of Association", "Board Resolution",
   "Shareholder Resolution", "UBO Declaration Form", "Incorporation Application Form"]

/-- `doc_type in requires_signature` where `doc_type` may be `None`. -/
def inReqSig (doc_type : Option String) : Bool :=
  match doc_type with
  | some dt => requires_signature.contains dt
  | none => false

/-- `find_red_flags` (`adgm_analyzer.py` lines 33-79): three independent
checks over the lowercased full text, appended in order. -/
def find_red_flags (doc_info : DocInfo) (doc_type : Option String := none) : List RedFlag :=
  let text := pyLower doc_info.full_text
  (if pyIn "uae federal court" text then [jurisFlag] else [])
  ++ (if ambiguous_markers.any (fun m => pyIn m text) then [ambFlag] else [])
  ++ (if inReqSig doc_type && !pyIn "sign" text && !pyIn "signature" text then [sigFlag] else [])

/-! ### Findings and suggestions (`main.py`, `adgm_analyzer.py` lines 82-111) -/

/-- A finding dict.  The Python key `section` is a Lean keyword and is
rendered as `sect`.  The three AI advisory keys are absent (`none`)
until reconciliation sets them. -/
structure Issue where
  document : String
  sect : String
  issue : String
  severity : String
  suggestion : String
  suggestion_ai : Option String := none
  rationale_ai : Option String := none
  citation_label : Option String := none
deriving DecidableEq

/-- `build_issue_report` (`adgm_analyzer.py` lines 82-111). -/
def build_issue_report (doc_type : String) (missing_clauses : List String)
    (red_flags : List RedFlag) : List Issue :=
  missing_clauses.map (fun clause =>
    { document := doc_type, sect := "N/A"
      issue := "Missing required clause: " ++ clause
      severity := "High"
      suggestion := "Add clause referencing '" ++ clause ++ "'." })
  ++ red_flags.map (fun rf =>
    { document := doc_type, sect := "N/A"
      issue := rf.issue
      severity := rf.severity
      suggestion := "Align with ADGM wording where applicable." })

/-- An external (AI-origin) suggestion record.  Fields are `Option`s:
`none` models an absent dict key, read back through `sug.get(k)` or
`sug.get(k, default)`. -/
structure Sug where
  issue : Option String := none
  rationale : Option String := none
  suggestion : Option String := none
  citation_label : Option String := none
deriving DecidableEq

/-- The in-place enrichment of a matched finding (`main.py` lines
172-174). -/
def enrichIssue (i : Issue) (s : Sug) : Issue :=
  { i with
    suggestion_ai := some (s.suggestion.getD "")
    rationale_ai := some (s.rationale.getD "")
    citation_label := some (s.citation_label.getD "") }

/-- The standalone finding appended for an applicable but unmatched
suggestion (`main.py` lines 180-189). -/
def newFinding (doc_type raw : String) (s : Sug) : Issue :=
  { document := doc_type, sect := "N/A"
    issue := if raw = "" then "AI-suggested improvement" else raw
    severity := "Medium"
    suggestion := ""
    suggestion_ai := some (s.suggestion.getD "")
    rationale_ai := some (s.rationale.getD "")
    citation_label := some (s.citation_label.getD "") }

/-- Result of the inner matching loop (`main.py` lines 167-176) for one
suggestion: the loop walks the (possibly already extended) findings list
in lockstep with the precomputed key list `issue_keys_current`; reading a
key for a position beyond that list raises `IndexError`. -/
inductive InnerResult where
  | crashed : InnerResult
  | matched : List Issue → InnerResult
  | unmatched : InnerResult
deriving DecidableEq

/-- The inner loop `for idx, issue in enumerate(file_issues)`: at each
position, with the suggestion key and the precomputed issue key both
non-empty, a symmetric-substring hit enriches that finding in place and
breaks; walking past the end of the key list is an `IndexError`. -/
def mergeInner (sugKey : String) (s : Sug) : List Issue → List String → InnerResult
  | [], _ => InnerResult.unmatched
  | _ :: _, [] => InnerResult.crashed
  | i :: is, k :: ks =>
    if sugKey != "" && k != "" && (pyIn sugKey k || pyIn k sugKey) then
      InnerResult.matched (enrichIssue i s :: is)
    else
      match mergeInner sugKey s is ks with
      | InnerResult.matched l => InnerResult.matched (i :: l)
      | r => r

/-- Reconciliation state: the in-place findings list, plus whether an
uncaught `IndexError` has aborted execution. -/
structure MergeState where
  issues : List Issue
  crashed : Bool
deriving DecidableEq

/-- Processing of one suggestion (`main.py` lines 158-189): compute its
normalized key, drop it when the document type rejects the key,
otherwise enrich the first match or append a new finding; an
`IndexError` in the inner loop stops execution with the list as is. -/
def mergeStep (doc_type : String) (keys : List String) (st : MergeState) (s : Sug) : MergeState :=
  if st.crashed then st
  else
    let raw := pyStrip (s.issue.getD "")
    let sugKey := normalize_issue_key raw
    if !doc_type_accepts_issue_key doc_type sugKey then st
    else
      match mergeInner sugKey s st.issues keys with
      | InnerResult.matched l => { st with issues := l }
      | InnerResult.unmatched => { st with issues := st.issues ++ [newFinding doc_type raw s] }
      | InnerResult.crashed => { st with crashed := true }

/-- The reconciliation stage (`main.py` lines 154-189): the key list is
computed once from the original findings, then each suggestion is
processed in order. -/
def mergeSuggestions (doc_type : String) (file_issues : List Issue) (sugs : List Sug) : MergeState :=
  let keys := file_issues.map (fun i => normalize_issue_key i.issue)
  sugs.foldl (mergeStep doc_type keys) { issues := file_issues, crashed := false }

/-! ### Location resolver and annotator (`document_processor.py`) -/

/-- `find_paragraph_indexes` auxiliary: the `enumerate` loop from index
`i`. -/
def fpiGo (snippet : List Char) : List String → Nat → List Nat
  | [], _ => []
  | p :: ps, i =>
    (if isSubL snippet (pyLowerL p.toList) then [i] else []) ++ fpiGo snippet ps (i + 1)

/-- `find_paragraph_indexes` (`document_processor.py` lines 44-55):
indexes of paragraphs containing the lowercased snippet, in document
order; the empty snippet yields the empty list. -/
def find_paragraph_indexes (text_snippet : String) (paragraphs : List String) : List Nat :=
  if text_snippet = "" then []
  else fpiGo (pyLower text_snippet).toList paragraphs 0

/-- The annotation-target fallback used at every call site in
`analyze_files` (`main.py` lines 201, 211, 224):
`hit_idxs[0] if hit_idxs else max(0, len(paragraphs) - 1)`. -/
def chooseTarget (idxs : List Nat) (paragraphs : List String) : Nat :=
  match idxs with
  | i :: _ => i
  | [] => paragraphs.length - 1

/-- A run in a docx paragraph, as mutated by `annotate_paragraph`. -/
structure Run where
  text : String
  bold : Bool
  highlight_color : String
deriving DecidableEq

/-- A docx paragraph; only its run list matters to the annotator. -/
structure Para where
  runs : List Run
deriving DecidableEq

/-- The body of `annotate_paragraph`'s `try` block
(`document_processor.py` lines 67-80): clamp an out-of-range index to
`max(0, len - 1)`, then index the paragraph list (an `IndexError` on an
empty document), append a bold highlighted comment run. -/
def annotateCore (doc : List Para) (para_index : Int) (comment_text : String)
    (highlight : String) : Except String (List Para) :=
  let n : Int := (doc.length : Int)
  let pi : Int := if para_index < 0 ∨ n ≤ para_index then max 0 (n - 1) else para_index
  match doc.get? pi.toNat with
  | none => Except.error "IndexError: paragraph index out of range"
  | some p =>
    let color :=
      if pyStrip (pyUpper (if highlight = "" then "YELLOW" else highlight)) = "RED"
      then "RED" else "YELLOW"
    Except.ok (doc.set pi.toNat
      { p with runs := p.runs ++
          [{ text := " [COMMENT: " ++ comment_text ++ "]", bold := true,
             highlight_color := color }] })

/-- `annotate_paragraph` (`document_processor.py` lines 58-82): the
`try`/`except` wrapper — any failure is caught and the document is
returned unchanged. -/
def annotate_paragraph (doc : List Para) (para_index : Int) (comment_text : String)
    (highlight : String := "YELLOW") : List Para :=
  match annotateCore doc para_index comment_text highlight with
  | Except.ok d => d
  | Except.error _ => doc

/-! ### Suggestion parsing and the call-site catch (`ai_agent.py` lines
97-105, `main.py` lines 134-151) -/

/-- `str.rfind(c)` auxiliary: index of the last occurrence of `c`. -/
def lastIdxGo (c : Char) : Nat → Option Nat → List Char → Option Nat
  | _, best, [] => best
  | pos, best, x :: xs => lastIdxGo c (pos + 1) (if x = c then some pos else best) xs

def lastIdxOf (c : Char) (cs : List Char) : Option Nat := lastIdxGo c 0 none cs

/-- The string handed to the JSON parser by `parse_ai_response_to_list`
(`ai_agent.py` lines 98-103): the slice from the first `[` to the last
`]` when both exist in that order, otherwise the whole text. -/
def parseCandidate (text : String) : String :=
  let cs := text.toList
  match cs.findIdx? (fun c => c = '['), lastIdxOf ']' cs with
  | some s, some e => if s < e then String.mk ((cs.drop s).take (e + 1 - s)) else text
  | some _, none => text
  | none, _ => text

/-- `parse_ai_response_to_list` (`ai_agent.py` lines 97-105).  The JSON
parser is an external collaborator; following the spec's interface
(`callSuggestionService` responses are "parsed as a list of
{issue, rationale, suggestion, citationLabel} records"), it is passed in
as `jsonLoads`, with `none` modelling a raised parse error.  The
surrounding `try`/`except` turns any failure into the empty list. -/
def parse_ai_response_to_list (jsonLoads : String → Option (List Sug)) (text : String) :
    List Sug :=
  (jsonLoads (parseCandidate text)).getD []

/-- The call-site guard in `analyze_files` (`main.py` lines 134-151):
`ai_suggestions` is the call's result, or the empty list when the call
raised. -/
def aiSuggestionsFromCall (r : Except String (List Sug)) : List Sug :=
  match r with
  | Except.ok l => l
  | Except.error _ => []

/-! ### Annotation stage of `analyze_files` (`main.py` lines 193-233) -/

/-- One committed annotation instruction: a call
`annotate_paragraph(doc, idx, comment, highlight)`. -/
structure Instr where
  idx : Nat
  comment : String
  highlight : String
deriving DecidableEq

/-- The deduplication key of an instruction:
`(target_idx, comment_text.lower().strip())`. -/
def dedupKey (ins : Instr) : Nat × String := (ins.idx, pyStrip (pyLower ins.comment))

/-- The `seen_comments` set plus the instructions committed so far. -/
structure PlanState where
  seen : List (Nat × String)
  out : List Instr
deriving DecidableEq

/-- Commit an instruction unless its deduplication key was already seen
(the shared `if key not in seen_comments` pattern of all three loops). -/
def emit (st : PlanState) (ins : Instr) : PlanState :=
  if dedupKey ins ∈ st.seen then st
  else { seen := st.seen ++ [dedupKey ins], out := st.out ++ [ins] }

/-- The instruction built for a missing clause (`main.py` lines
199-206). -/
def mcInstr (paragraphs : List String) (clause : String) : Instr :=
  { idx := chooseTarget (find_paragraph_indexes clause paragraphs) paragraphs
    comment := "Missing required clause: " ++ clause
    highlight := "YELLOW" }

/-- The instruction built for a red flag (`main.py` lines 208-216); an
empty (falsy) `match` value skips the search. -/
def rfInstr (paragraphs : List String) (rf : RedFlag) : Instr :=
  let hit := if rf.matchText = "" then [] else find_paragraph_indexes rf.matchText paragraphs
  { idx := chooseTarget hit paragraphs
    comment := "Red flag: " ++ rf.issue
    highlight := "RED" }

/-- The instruction built for an AI suggestion (`main.py` lines
219-232): the search snippet is the stripped text before the first `:`
of the raw issue, and the comment carries the citation label when that
is non-empty (`sug.get("citation_label", "ADGM Reference")`). -/
def aiInstr (paragraphs : List String) (s : Sug) : Instr :=
  let raw := s.issue.getD ""
  let key_phrase := pyStrip (String.mk (raw.toList.takeWhile (fun c => c ≠ ':')))
  let idxs := if key_phrase = "" then [] else find_paragraph_indexes key_phrase paragraphs
  let tag := s.citation_label.getD "ADGM Reference"
  { idx := chooseTarget idxs paragraphs
    comment := "AI Suggestion: " ++ s.suggestion.getD ""
      ++ (if tag = "" then "" else " | Source: " ++ tag)
    highlight := "YELLOW" }

/-- The full annotation stage for one document (`main.py` lines
196-233): `seen_comments` starts empty, then the missing-clause, red-flag
and AI-suggestion loops run in order, sharing it. -/
def annotPlan (missing_clauses : List String) (red_flags : List RedFlag)
    (ai_suggestions : List Sug) (paragraphs : List String) : List Instr :=
  let st0 : PlanState := { seen := [], out := [] }
  let st1 := missing_clauses.foldl (fun st c => emit st (mcInstr paragraphs c)) st0
  let st2 := red_flags.foldl (fun st rf => emit st (rfInstr paragraphs rf)) st1
  let st3 := ai_suggestions.foldl (fun st s => emit st (aiInstr paragraphs s)) st2
  st3.out

/-- The per-document inputs of the annotation stage. -/
structure DocJob where
  missing_clauses : List String
  red_flags : List RedFlag
  ai_suggestions : List Sug
  paragraphs : List String
deriving DecidableEq

/-- The batch loop (`main.py` line 99 onwards), restricted to the
annotation stage: each document is processed with a fresh empty
`seen_comments` set. -/
def batchPlans : List DocJob → List (List Instr)
  | [] => []
  | d :: ds =>
    annotPlan d.missing_clauses d.red_flags d.ai_suggestions d.paragraphs :: batchPlans ds

/-! ### Helper lemmas -/

/-- The `check_required_clauses` accumulator loop collects exactly a
`filterMap` of the clause list. -/
theorem crc_foldl (text : String) (l acc : List String) :
    l.foldl
      (fun missing clause =>
        if pyStrip clause = "" then missing
        else if pyIn (pyLower (pyStrip clause)) text then missing
        else missing ++ [pyStrip clause])
      acc
    = acc ++ l.filterMap (fun clause =>
        if pyStrip clause = "" then none
        else if pyIn (pyLower (pyStrip clause)) text then none
        else some (pyStrip clause)) := by
  induction l generalizing acc with
  | nil => simp
  | cons c l ih =>
    simp only [List.foldl_cons, List.filterMap_cons]
    by_cases h1 : pyStrip c = ""
    · simp [h1, ih]
    · by_cases h2 : pyIn (pyLower (pyStrip c)) text = true
      · simp [h1, h2, ih]
      · simp [h1, h2, ih]

/-! ### Claim C2 — key-normalizer idempotence -/

/-- Claim C2, counterexample: normalization is not idempotent.  On
`"abu dhabi global-market"` the first pass only turns the hyphen into a
space (the `abu dhabi global market` collapse rule runs before
punctuation removal, so it does not fire), producing
`"abu dhabi global market"`; a second pass then collapses that to
`"adgm"`. -/
theorem C2_counterexample :
    normalize_issue_key (normalize_issue_key "abu dhabi global-market")
      ≠ normalize_issue_key "abu dhabi global-market"
    ∧ normalize_issue_key "abu dhabi global-market" = "abu dhabi global market"
    ∧ normalize_issue_key "abu dhabi global market" = "adgm" := by
  refine ⟨?_, by decide, by decide⟩
  decide

/-- Claim C2 (amended): the issue-key normalizer is deterministic and
total and maps the empty string to the empty key; it is however not
idempotent in general (see the counterexample). -/
theorem C2_amended :
    normalize_issue_key "" = ""
    ∧ ∀ x y : String, x = y → normalize_issue_key x = normalize_issue_key y := by
  exact ⟨by decide, fun x y h => by rw [h]⟩

/-- Witness for `C2_amended` at concrete inputs. -/
theorem C2_amended_witness :
    normalize_issue_key "" = ""
    ∧ normalize_issue_key "Red flag: x" = normalize_issue_key "Red flag: x" :=
  ⟨C2_amended.1, C2_amended.2 "Red flag: x" "Red flag: x" rfl⟩

/-! ### Claim C3 — required-clause checking -/

def diC3 : DocInfo :=
  { paragraphs := ["Signatories are listed here"], headings := []
    full_text := "Signatories are listed here" }

def rulesC3 : Rules :=
  { clauses_per_doc := [("Articles of Association", some ["  Signatories  "])]
    required_documents := [] }

/-- Claim C3, counterexample: the code strips each rule-set keyword
before testing and reporting it, so on a whitespace-padded keyword it
disagrees with the claim's raw-keyword reading: the code finds the
stripped keyword `"Signatories"` in the text and reports nothing, while
the claim's criterion (the raw keyword `"  Signatories  "` lowercased
does not occur in the text) would report it. -/
theorem C3_counterexample :
    check_required_clauses diC3 "Articles of Association" rulesC3 = []
    ∧ check_required_clauses_spec diC3 "Articles of Association" rulesC3 = ["  Signatories  "]
    ∧ check_required_clauses diC3 "Articles of Association" rulesC3
        ≠ check_required_clauses_spec diC3 "Articles of Association" rulesC3 := by
  refine ⟨by decide, by decide, by decide⟩

/-- Claim C3 (amended): `check_required_clauses` returns exactly those
required-clause keywords of the document type that, after stripping
surrounding whitespace, are non-empty and whose stripped lowercased form
does not occur as a substring of the lowercased full text — reported in
stripped form, in rule-set order; and a missing, null or empty rule-set
entry for the document type yields the empty list without an error. -/
theorem C3_amended (di : DocInfo) (dt : String) (rules : Rules) :
    check_required_clauses di dt rules
      = (requiredClausesOf rules dt).filterMap (fun clause =>
          if pyStrip clause = "" then none
          else if pyIn (pyLower (pyStrip clause)) (pyLower di.full_text) then none
          else some (pyStrip clause))
    ∧ (requiredClausesOf rules dt = [] → check_required_clauses di dt rules = []) := by
  constructor
  · simp only [check_required_clauses]
    rw [crc_foldl]
    simp
  · intro h
    simp [check_required_clauses, h]

/-- Witness for `C3_amended` at concrete inputs, including the
missing-entry case. -/
theorem C3_amended_witness :
    check_required_clauses diC3 "Articles of Association" rulesC3
      = (requiredClausesOf rulesC3 "Articles of Association").filterMap (fun clause =>
          if pyStrip clause = "" then none
          else if pyIn (pyLower (pyStrip clause)) (pyLower diC3.full_text) then none
          else some (pyStrip clause))
    ∧ requiredClausesOf rulesC3 "Board Resolution" = []
    ∧ check_required_clauses diC3 "Board Resolution" rulesC3 = [] :=
  ⟨(C3_amended diC3 "Articles of Association" rulesC3).1, by decide,
   (C3_amended diC3 "Board Resolution" rulesC3).2 (by decide)⟩

/-! ### Claim C4 — reconciliation preserves existing findings -/

/-- The rule-derived part of a finding: everything except the three AI
advisory fields. -/
def issueCore (i : Issue) : String × String × String × String × String :=
  (i.document, i.sect, i.issue, i.severity, i.suggestion)

theorem enrich_core (i : Issue) (s : Sug) : issueCore (enrichIssue i s) = issueCore i := rfl

/-- A successful inner-loop match only rewrites AI advisory fields: the
rule-derived projection of the findings list is unchanged. -/
theorem mergeInner_matched_core (sugKey : String) (s : Sug) :
    ∀ (issues : List Issue) (keys : List String) (l : List Issue),
      mergeInner sugKey s issues keys = InnerResult.matched l →
      l.map issueCore = issues.map issueCore := by
  intro issues
  induction issues with
  | nil => intro keys l h; simp [mergeInner] at h
  | cons i is ih =>
    intro keys l h
    cases keys with
    | nil => simp [mergeInner] at h
    | cons k ks =>
      simp only [mergeInner] at h
      by_cases hc : (sugKey != "" && k != "" && (pyIn sugKey k || pyIn k sugKey)) = true
      · rw [if_pos hc] at h
        cases h
        simp [List.map_cons, enrich_core]
      · rw [if_neg hc] at h
        cases hrec : mergeInner sugKey s is ks with
        | matched l' =>
          rw [hrec] at h
          cases h
          simp [List.map_cons, ih ks l' hrec]
        | crashed => rw [hrec] at h; cases h
        | unmatched => rw [hrec] at h; cases h

/-- One reconciliation step preserves the length bound and the
rule-derived projection of the first `n` findings. -/
theorem mergeStep_inv (dt : String) (keys : List String) (n : Nat)
    (base : List (String × String × String × String × String))
    (st : MergeState) (s : Sug)
    (h1 : n ≤ st.issues.length)
    (h2 : (st.issues.take n).map issueCore = base) :
    n ≤ (mergeStep dt keys st s).issues.length
    ∧ ((mergeStep dt keys st s).issues.take n).map issueCore = base := by
  unfold mergeStep
  by_cases hcr : st.crashed = true
  · simp only [hcr, if_pos]
    exact ⟨h1, h2⟩
  · simp only [Bool.not_eq_true] at hcr
    simp only [hcr, Bool.false_eq_true, if_false]
    by_cases hacc :
        (!doc_type_accepts_issue_key dt (normalize_issue_key (pyStrip (s.issue.getD "")))) = true
    · rw [if_pos hacc]
      exact ⟨h1, h2⟩
    · rw [if_neg hacc]
      cases hrec : mergeInner (normalize_issue_key (pyStrip (s.issue.getD ""))) s st.issues keys with
      | matched l =>
        have hcore := mergeInner_matched_core _ _ _ _ _ hrec
        have hlen : l.length = st.issues.length := by
          have := congrArg List.length hcore
          simpa using this
        refine ⟨by simpa [hlen] using h1, ?_⟩
        calc (l.take n).map issueCore = (l.map issueCore).take n := by rw [List.map_take]
          _ = (st.issues.map issueCore).take n := by rw [hcore]
          _ = (st.issues.take n).map issueCore := by rw [List.map_take]
          _ = base := h2
      | unmatched =>
        refine ⟨?_, ?_⟩
        · simpa using Nat.le_trans h1 (by simp)
        · rw [List.take_append_of_le_length h1]
          exact h2
      | crashed =>
        exact ⟨h1, h2⟩

/-- The reconciliation fold preserves the invariant of `mergeStep_inv`. -/
theorem mergeFold_inv (dt : String) (keys : List String) (n : Nat)
    (base : List (String × String × String × String × String)) :
    ∀ (sugs : List Sug) (st : MergeState),
      n ≤ st.issues.length →
      (st.issues.take n).map issueCore = base →
      n ≤ (sugs.foldl (mergeStep dt keys) st).issues.length
      ∧ ((sugs.foldl (mergeStep dt keys) st).issues.take n).map issueCore = base := by
  intro sugs
  induction sugs with
  | nil => intro st h1 h2; exact ⟨h1, h2⟩
  | cons s sugs ih =>
    intro st h1 h2
    have hstep := mergeStep_inv dt keys n base st s h1 h2
    exact ih (mergeStep dt keys st s) hstep.1 hstep.2

/-- Claim C4 (confirmed): reconciliation never removes or reorders
pre-existing findings and never decreases their count — for every
document type, findings list and suggestion list, the first `N` entries
of the reconciled list are the original `N` findings in order with their
document, section, issue, severity and rule-derived suggestion fields
unchanged (only the AI advisory fields can differ), and the reconciled
list is at least `N` long.  This holds for the list state even when the
merge loop stops on the `IndexError` of claim C5. -/
theorem C4_merge_preserves (doc_type : String) (file_issues : List Issue) (sugs : List Sug) :
    file_issues.length ≤ (mergeSuggestions doc_type file_issues sugs).issues.length
    ∧ ((mergeSuggestions doc_type file_issues sugs).issues.take file_issues.length).map issueCore
        = file_issues.map issueCore := by
  unfold mergeSuggestions
  exact mergeFold_inv _ _ _ _ sugs _ (Nat.le_refl _) (by rw [List.take_length])

/-! ### Claim C5 — enrich-or-append behaviour of the merge loop -/

def sugDirectors : Sug := { issue := some "directors" }

def sugDividends : Sug := { issue := some "dividends" }

/-- Claim C5: the merge loop matches each suggestion against
`issue_keys_current`, a key list computed once from the original
findings, while iterating over the growing `file_issues` list.  With no
original findings and two applicable, unmatched suggestions, the first
is appended as a Medium-severity finding as the claim states — but the
second then walks onto the appended entry, reads
`issue_keys_current[idx]` past the end of the key list, and raises an
uncaught `IndexError` instead of being appended. -/
theorem C5_crash :
    (mergeSuggestions "Articles of Association" [] [sugDirectors]).issues
      = [newFinding "Articles of Association" "directors" sugDirectors]
    ∧ (mergeSuggestions "Articles of Association" [] [sugDirectors]).crashed = false
    ∧ (mergeSuggestions "Articles of Association" [] [sugDirectors, sugDividends]).crashed = true
    ∧ (mergeSuggestions "Articles of Association" [] [sugDirectors, sugDividends]).issues
      = [newFinding "Articles of Association" "directors" sugDirectors] := by
  refine ⟨by decide, by decide, by decide, by decide⟩

/-! ### Claim C1 — inapplicable suggestions -/

def sugC1 : Sug :=
  { issue := some "registered address", suggestion := some "fix text"
    citation_label := some "Ref1" }

/-- Claim C1, counterexample: `"registered address"` is not accepted for
an Articles of Association document (no allow token occurs in the key),
so the merge stage drops the suggestion — but the annotation stage
(`main.py` lines 218-233) iterates over *all* AI suggestions with no
applicability filter, so the dropped suggestion still contributes a
paragraph-comment instruction. -/
theorem C1_counterexample :
    doc_type_accepts_issue_key "Articles of Association"
        (normalize_issue_key (pyStrip (sugC1.issue.getD ""))) = false
    ∧ annotPlan [] [] [sugC1] ["hello"]
        = [{ idx := 0, comment := "AI Suggestion: fix text | Source: Ref1"
             highlight := "YELLOW" }] := by
  refine ⟨by decide, by decide⟩

/-- A suggestion whose key the document type rejects leaves the merge
state untouched, crashed or not. -/
theorem mergeStep_skip (dt : String) (keys : List String) (s : Sug)
    (h : doc_type_accepts_issue_key dt (normalize_issue_key (pyStrip (s.issue.getD ""))) = false)
    (st : MergeState) :
    mergeStep dt keys st s = st := by
  unfold mergeStep
  by_cases hcr : st.crashed = true
  · simp [hcr]
  · simp only [Bool.not_eq_true] at hcr
    simp [hcr, h]

/-- Claim C1 (amended): a suggestion whose normalized key the document
type's allow-list rejects contributes nothing to reconciliation — no
existing finding is enriched and no new finding is appended: removing it
from the suggestion list leaves the reconciliation result unchanged.
(It can, however, still produce an annotation instruction; see the
counterexample.) -/
theorem C1_amended (doc_type : String) (file_issues : List Issue)
    (pre post : List Sug) (s : Sug)
    (h : doc_type_accepts_issue_key doc_type
          (normalize_issue_key (pyStrip (s.issue.getD ""))) = false) :
    mergeSuggestions doc_type file_issues (pre ++ s :: post)
      = mergeSuggestions doc_type file_issues (pre ++ post) := by
  unfold mergeSuggestions
  rw [List.foldl_append, List.foldl_append, List.foldl_cons]
  rw [mergeStep_skip _ _ _ h]

/-- Witness for `C1_amended`: the concrete inapplicable suggestion of
the counterexample is dropped from reconciliation. -/
theorem C1_amended_witness :
    mergeSuggestions "Articles of Association" [] ([] ++ sugC1 :: [])
      = mergeSuggestions "Articles of Association" [] ([] ++ []) :=
  C1_amended "Articles of Association" [] [] [] sugC1 (by decide)

/-! ### Claim C6 — annotation deduplication -/

/-- The invariant of the annotation stage: committed instructions have
pairwise-distinct deduplication keys, and every committed key is in the
`seen_comments` set. -/
def PlanInv (st : PlanState) : Prop :=
  (st.out.map dedupKey).Nodup ∧ ∀ k ∈ st.out.map dedupKey, k ∈ st.seen

theorem emit_inv (st : PlanState) (ins : Instr) (h : PlanInv st) : PlanInv (emit st ins) := by
  unfold emit
  by_cases hk : dedupKey ins ∈ st.seen
  · rw [if_pos hk]; exact h
  · rw [if_neg hk]
    constructor
    · simp only [List.map_append, List.map_cons, List.map_nil]
      refine List.Nodup.append h.1 (List.nodup_singleton _) ?_
      intro x hx hx1
      simp only [List.mem_singleton] at hx1
      subst hx1
      exact hk (h.2 _ hx)
    · intro k hkmem
      simp only [List.map_append, List.map_cons, List.map_nil, List.mem_append,
        List.mem_singleton] at hkmem
      rcases hkmem with hkmem | hkmem
      · exact List.mem_append_left _ (h.2 k hkmem)
      · subst hkmem; exact List.mem_append_right _ (List.mem_singleton_self _)

/-- Any of the three annotation loops preserves the invariant. -/
theorem foldl_emit_inv {α : Type} (g : α → Instr) :
    ∀ (l : List α) (st : PlanState), PlanInv st →
      PlanInv (l.foldl (fun st x => emit st (g x)) st) := by
  intro l
  induction l with
  | nil => intro st h; exact h
  | cons x l ih => intro st h; exact ih (emit st (g x)) (emit_inv st (g x) h)

/-- Claim C6 (confirmed): within one document the committed annotation
instructions have pairwise-distinct `(paragraph index,
lowercased-and-trimmed comment)` keys across all three finding sources,
and the batch loop runs each document's annotation stage with a fresh
empty `seen_comments` set. -/
theorem C6_no_duplicate_targets :
    (∀ (mc : List String) (rfs : List RedFlag) (sugs : List Sug) (ps : List String),
        ((annotPlan mc rfs sugs ps).map dedupKey).Nodup)
    ∧ (∀ docs : List DocJob,
        batchPlans docs
          = docs.map (fun d =>
              annotPlan d.missing_clauses d.red_flags d.ai_suggestions d.paragraphs)) := by
  constructor
  · intro mc rfs sugs ps
    have h0 : PlanInv { seen := [], out := [] } := by
      constructor
      · simp
      · intro k hk; simp at hk
    exact (foldl_emit_inv (aiInstr ps) sugs _
      (foldl_emit_inv (rfInstr ps) rfs _
        (foldl_emit_inv (mcInstr ps) mc _ h0))).1
  · intro docs
    induction docs with
    | nil => simp [batchPlans]
    | cons d ds ih => simp [batchPlans, ih]

/-! ### Claim C7 — the missing-signatory red flag -/

theorem toList_append (a b : String) : (a ++ b).toList = a.toList ++ b.toList := by
  cases a; cases b; rfl

theorem isPrefixOf_append_right (n : List Char) :
    ∀ (m y : List Char), n.isPrefixOf m = true → n.isPrefixOf (m ++ y) = true := by
  induction n with
  | nil => intro m y _; simp [List.isPrefixOf]
  | cons a as ih =>
    intro m y h
    cases m with
    | nil => simp [List.isPrefixOf] at h
    | cons b bs =>
      simp only [List.isPrefixOf, Bool.and_eq_true] at h
      simp only [List.cons_append, List.isPrefixOf, Bool.and_eq_true]
      exact ⟨h.1, ih bs y h.2⟩

theorem isSubL_of_isPrefixOf (n m : List Char) (h : n.isPrefixOf m = true) :
    isSubL n m = true := by
  cases m with
  | nil =>
    cases n with
    | nil => decide
    | cons a as => simp [List.isPrefixOf] at h
  | cons c t => simp [isSubL, h]

theorem isSubL_append_left (n : List Char) :
    ∀ (x m : List Char), isSubL n m = true → isSubL n (x ++ m) = true := by
  intro x
  induction x with
  | nil => intro m h; exact h
  | cons c cs ih => intro m h; simp [isSubL, ih m h]

/-- Inserting `"Signature:"` anywhere in a text makes the lowercased
text contain `"signature"`. -/
theorem pyIn_lower_middle (a b : String) :
    pyIn "signature" (pyLower (a ++ "Signature:" ++ b)) = true := by
  show isSubL "signature".toList (pyLowerL (a ++ "Signature:" ++ b).toList) = true
  rw [toList_append, toList_append]
  unfold pyLowerL
  rw [List.map_append, List.map_append, List.append_assoc]
  refine isSubL_append_left _ _ _ ?_
  refine isSubL_of_isPrefixOf _ _ ?_
  refine isPrefixOf_append_right _ _ _ ?_
  decide

theorem count_sig_flags (t1 t2 t3 : Bool) :
    List.count sigFlag
        ((if t1 = true then [jurisFlag] else [])
          ++ (if t2 = true then [ambFlag] else [])
          ++ (if t3 = true then [sigFlag] else []))
      = if t3 = true then 1 else 0 := by
  cases t1 <;> cases t2 <;> cases t3 <;> decide

/-- Claim C7 (confirmed): for a document whose type is in the fixed
signature-bearing set, the missing-signatory red flag appears exactly
once iff neither `"sign"` nor `"signature"` occurs case-insensitively in
the full text; inserting `"Signature:"` anywhere makes it absent; and it
is never produced for types outside the set. -/
theorem C7_signature_flag (di : DocInfo) (dt : Option String) :
    (inReqSig dt = true →
       List.count sigFlag (find_red_flags di dt)
         = if pyIn "sign" (pyLower di.full_text) = false
              ∧ pyIn "signature" (pyLower di.full_text) = false
           then 1 else 0)
    ∧ (∀ a b : String, inReqSig dt = true →
         List.count sigFlag
           (find_red_flags { di with full_text := a ++ "Signature:" ++ b } dt) = 0)
    ∧ (inReqSig dt = false → sigFlag ∉ find_red_flags di dt) := by
  refine ⟨?_, ?_, ?_⟩
  · intro h
    simp only [find_red_flags]
    rw [count_sig_flags]
    cases hs1 : pyIn "sign" (pyLower di.full_text) <;>
      cases hs2 : pyIn "signature" (pyLower di.full_text) <;>
        simp [h, hs1, hs2]
  · intro a b h
    have hs2 := pyIn_lower_middle a b
    simp only [find_red_flags]
    rw [count_sig_flags]
    simp [hs2]
  · intro h
    have hc : List.count sigFlag (find_red_flags di dt) = 0 := by
      simp only [find_red_flags]
      rw [count_sig_flags]
      simp [h]
    exact List.count_eq_zero.mp hc

/-- Witness for `C7_signature_flag` at concrete documents. -/
theorem C7_signature_flag_witness :
    List.count sigFlag (find_red_flags ⟨[], [], "hello"⟩ (some "Board Resolution")) = 1
    ∧ List.count sigFlag
        (find_red_flags ⟨[], [], "x" ++ "Signature:" ++ "y"⟩ (some "Board Resolution")) = 0
    ∧ sigFlag ∉ find_red_flags ⟨[], [], "hello"⟩ (some "Register of Members and Directors") := by
  refine ⟨?_, ?_, ?_⟩
  · rw [(C7_signature_flag ⟨[], [], "hello"⟩ (some "Board Resolution")).1 (by decide)]
    decide
  · exact (C7_signature_flag ⟨[], [], "hello"⟩ (some "Board Resolution")).2.1 "x" "y" (by decide)
  · exact (C7_signature_flag ⟨[], [], "hello"⟩
      (some "Register of Members and Directors")).2.2 (by decide)

/-! ### Claim C8 — the location resolver and its call-site fallback -/

/-- Membership characterization of the `enumerate` loop of
`find_paragraph_indexes`. -/
theorem fpiGo_mem (sn : List Char) :
    ∀ (ps : List String) (i j : Nat),
      j ∈ fpiGo sn ps i
        ↔ ∃ k, ∃ h : k < ps.length,
            j = i + k ∧ isSubL sn (pyLowerL (ps.get ⟨k, h⟩).toList) = true := by
  intro ps
  induction ps with
  | nil =>
    intro i j
    simp [fpiGo]
  | cons p ps ih =>
    intro i j
    simp only [fpiGo, List.mem_append]
    constructor
    · intro h
      rcases h with h | h
      · by_cases hc : isSubL sn (pyLowerL p.toList) = true
        · rw [if_pos hc] at h
          simp only [List.mem_singleton] at h
          subst h
          exact ⟨0, Nat.succ_pos _, by simp, hc⟩
        · rw [if_neg hc] at h
          simp at h
      · rcases (ih (i + 1) j).mp h with ⟨k, hk, hjk, hsub⟩
        refine ⟨k + 1, Nat.succ_lt_succ hk, by omega, ?_⟩
        simpa using hsub
    · rintro ⟨k, hk, hjk, hsub⟩
      cases k with
      | zero =>
        left
        simp only [List.get] at hsub
        rw [if_pos hsub]
        simp [hjk]
      | succ k' =>
        right
        refine (ih (i + 1) j).mpr ⟨k', Nat.lt_of_succ_lt_succ hk, by omega, ?_⟩
        simpa using hsub

/-- Every index produced by the loop is at least the starting index. -/
theorem fpiGo_lb (sn : List Char) :
    ∀ (ps : List String) (i : Nat), ∀ j ∈ fpiGo sn ps i, i ≤ j := by
  intro ps
  induction ps with
  | nil => intro i j h; simp [fpiGo] at h
  | cons p ps ih =>
    intro i j h
    simp only [fpiGo, List.mem_append] at h
    rcases h with h | h
    · by_cases hc : isSubL sn (pyLowerL p.toList) = true
      · rw [if_pos hc] at h; simp only [List.mem_singleton] at h; omega
      · rw [if_neg hc] at h; simp at h
    · have := ih (i + 1) j h; omega

/-- The loop's output is strictly increasing. -/
theorem fpiGo_pairwise (sn : List Char) :
    ∀ (ps : List String) (i : Nat), (fpiGo sn ps i).Pairwise (· < ·) := by
  intro ps
  induction ps with
  | nil => intro i; simp [fpiGo]
  | cons p ps ih =>
    intro i
    simp only [fpiGo]
    by_cases hc : isSubL sn (pyLowerL p.toList) = true
    · rw [if_pos hc]
      simp only [List.singleton_append, List.pairwise_cons]
      refine ⟨fun j hj => ?_, ih (i + 1)⟩
      have := fpiGo_lb sn ps (i + 1) j hj
      omega
    · rw [if_neg hc]
      simpa using ih (i + 1)

/-- Claim C8 (confirmed): `find_paragraph_indexes` returns exactly the
indices, in ascending document order, at which the lowercased snippet
occurs as a substring of the lowercased paragraph (all matches), with
the empty list for an empty snippet; at the call sites the annotation
target is the first returned index when one exists, otherwise the last
paragraph index, or `0` for a paragraph-free document. -/
theorem C8_location_resolver (snippet : String) (ps : List String) :
    (snippet = "" → find_paragraph_indexes snippet ps = [])
    ∧ (snippet ≠ "" → ∀ j,
        j ∈ find_paragraph_indexes snippet ps
          ↔ ∃ h : j < ps.length, pyIn (pyLower snippet) (pyLower (ps.get ⟨j, h⟩)) = true)
    ∧ (find_paragraph_indexes snippet ps).Pairwise (· < ·)
    ∧ (∀ i rest, find_paragraph_indexes snippet ps = i :: rest →
        chooseTarget (find_paragraph_indexes snippet ps) ps = i)
    ∧ (find_paragraph_indexes snippet ps = [] →
        chooseTarget (find_paragraph_indexes snippet ps) ps = ps.length - 1)
    ∧ (ps = [] → chooseTarget (find_paragraph_indexes snippet ps) ps = 0) := by
  refine ⟨?_, ?_, ?_, ?_, ?_, ?_⟩
  · intro h; simp [find_paragraph_indexes, h]
  · intro h j
    unfold find_paragraph_indexes
    rw [if_neg h]
    rw [fpiGo_mem]
    constructor
    · rintro ⟨k, hk, hjk, hsub⟩
      subst hjk
      simpa using ⟨hk, hsub⟩
    · rintro ⟨hj, hsub⟩
      exact ⟨j, hj, by omega, hsub⟩
  · by_cases h : snippet = ""
    · simp [find_paragraph_indexes, h]
    · unfold find_paragraph_indexes
      rw [if_neg h]
      exact fpiGo_pairwise _ ps 0
  · intro i rest h
    rw [h]
    rfl
  · intro h
    rw [h]
    rfl
  · intro h
    subst h
    by_cases hs : snippet = "" <;> simp [find_paragraph_indexes, hs, fpiGo, chooseTarget]

/-- Witness for `C8_location_resolver` at a concrete snippet and
paragraph list. -/
theorem C8_location_resolver_witness :
    find_paragraph_indexes "" ["a"] = []
    ∧ (0 ∈ find_paragraph_indexes "Sign" ["We sign here", "nothing", "SIGN"]
        ↔ ∃ h : 0 < (["We sign here", "nothing", "SIGN"] : List String).length,
            pyIn (pyLower "Sign")
              (pyLower ((["We sign here", "nothing", "SIGN"] : List String).get ⟨0, h⟩)) = true)
    ∧ chooseTarget (find_paragraph_indexes "Sign" ["We sign here", "nothing", "SIGN"])
        ["We sign here", "nothing", "SIGN"] = 0
    ∧ chooseTarget (find_paragraph_indexes "zzz" ["a", "b"]) ["a", "b"] = 1
    ∧ chooseTarget (find_paragraph_indexes "zzz" []) [] = 0 := by
  refine ⟨(C8_location_resolver "" ["a"]).1 rfl,
    (C8_location_resolver "Sign" ["We sign here", "nothing", "SIGN"]).2.1 (by decide) 0,
    (C8_location_resolver "Sign" ["We sign here", "nothing", "SIGN"]).2.2.2.1 0 [2] (by decide),
    (C8_location_resolver "zzz" ["a", "b"]).2.2.2.2.1 (by decide),
    (C8_location_resolver "zzz" []).2.2.2.2.2 rfl⟩

/-! ### Claim C9 — the suggestion pathway never surfaces an exception -/

/-- Claim C9 (confirmed): `parse_ai_response_to_list` is total — the
external JSON parse of the bracket-delimited candidate either succeeds
with the record list, which is returned, or fails, which yields the
empty list; and a failure of the whole suggestion call is caught at the
call site as zero suggestions, so the document's reconciliation runs
unchanged and uncrashed and the batch continues. -/
theorem C9_parse_never_raises (jsonLoads : String → Option (List Sug)) (text : String) :
    (jsonLoads (parseCandidate text) = none →
       parse_ai_response_to_list jsonLoads text = [])
    ∧ (∀ l, jsonLoads (parseCandidate text) = some l →
        parse_ai_response_to_list jsonLoads text = l)
    ∧ (∀ err : String, aiSuggestionsFromCall (Except.error err) = [])
    ∧ (∀ (err doc_type : String) (file_issues : List Issue),
        mergeSuggestions doc_type file_issues (aiSuggestionsFromCall (Except.error err))
          = { issues := file_issues, crashed := false }) := by
  refine ⟨?_, ?_, fun _ => rfl, fun _ _ _ => rfl⟩
  · intro h
    simp [parse_ai_response_to_list, h]
  · intro l h
    simp [parse_ai_response_to_list, h]

/-- Witness for `C9_parse_never_raises` at concrete parsers and
payloads. -/
theorem C9_parse_never_raises_witness :
    parse_ai_response_to_list (fun _ => none) "not json at all" = []
    ∧ parse_ai_response_to_list (fun _ => some [sugC1]) "x [1] y" = [sugC1]
    ∧ aiSuggestionsFromCall (Except.error "timeout") = []
    ∧ mergeSuggestions "Articles of Association" []
        (aiSuggestionsFromCall (Except.error "timeout"))
        = { issues := [], crashed := false } :=
  ⟨(C9_parse_never_raises (fun _ => none) "not json at all").1 rfl,
   (C9_parse_never_raises (fun _ => some [sugC1]) "x [1] y").2.1 [sugC1] rfl,
   (C9_parse_never_raises (fun _ => none) "").2.2.1 "timeout",
   (C9_parse_never_raises (fun _ => none) "").2.2.2 "timeout" "Articles of Association" []⟩

/-! ### Claim C10 — `annotate_paragraph` never raises -/

/-- Claim C10 (confirmed): `annotate_paragraph` is total for every
integer index: an out-of-range index (negative, or at or past the
paragraph count) behaves exactly like annotating the last paragraph; the
only internal failure is indexing a zero-paragraph document, which the
`except` handler catches, returning the document unchanged; a non-empty
document is always annotated successfully. -/
theorem C10_annotate_total (doc : List Para) (i : Int) (c h : String) :
    (doc = [] → annotate_paragraph doc i c h = doc)
    ∧ (doc ≠ [] → (i < 0 ∨ (doc.length : Int) ≤ i) →
        annotate_paragraph doc i c h = annotate_paragraph doc ((doc.length : Int) - 1) c h)
    ∧ (∀ s, annotateCore doc i c h = Except.error s →
        doc = [] ∧ annotate_paragraph doc i c h = doc)
    ∧ (doc ≠ [] → annotateCore doc i c h = Except.ok (annotate_paragraph doc i c h)) := by
  have hget : doc ≠ [] → ∀ j : Int,
      ((if j < 0 ∨ ((doc.length : Int)) ≤ j
        then max 0 ((doc.length : Int) - 1) else j).toNat) < doc.length := by
    intro hne j
    have hlen : 0 < doc.length := List.length_pos.mpr hne
    by_cases hj : j < 0 ∨ ((doc.length : Int)) ≤ j
    · rw [if_pos hj]; omega
    · rw [if_neg hj]; omega
  refine ⟨?_, ?_, ?_, ?_⟩
  · intro hnil
    subst hnil
    rfl
  · intro hne hout
    unfold annotate_paragraph annotateCore
    have h1 : (i < 0 ∨ ((doc.length : Int)) ≤ i) := hout
    have hmax : max 0 ((doc.length : Int) - 1) = (doc.length : Int) - 1 := by
      have hlen : 0 < doc.length := List.length_pos.mpr hne
      omega
    simp only [if_pos h1, hmax, ite_self]
  · intro s herr
    unfold annotateCore at herr
    by_cases hne : doc = []
    · refine ⟨hne, ?_⟩
      subst hne
      rfl
    · exfalso
      have hlt := hget hne i
      have : ∃ p, doc.get? ((if i < 0 ∨ ((doc.length : Int)) ≤ i
          then max 0 ((doc.length : Int) - 1) else i).toNat) = some p := by
        rw [List.get?_eq_get hlt]
        exact ⟨_, rfl⟩
      rcases this with ⟨p, hp⟩
      simp only [hp] at herr
      cases herr
  · intro hne
    unfold annotate_paragraph annotateCore
    have hlt := hget hne i
    have hp : doc.get? ((if i < 0 ∨ ((doc.length : Int)) ≤ i
        then max 0 ((doc.length : Int) - 1) else i).toNat)
        = some (doc.get ⟨_, hlt⟩) := List.get?_eq_get hlt
    simp only [hp]

/-- Witness for `C10_annotate_total` at concrete documents and
indices. -/
theorem C10_annotate_total_witness :
    annotate_paragraph ([] : List Para) 5 "c" "YELLOW" = []
    ∧ annotate_paragraph [Para.mk []] (-2) "c" "YELLOW"
        = annotate_paragraph [Para.mk []] (((([Para.mk []] : List Para).length) : Int) - 1)
            "c" "YELLOW"
    ∧ annotateCore [Para.mk []] 0 "c" "YELLOW"
        = Except.ok (annotate_paragraph [Para.mk []] 0 "c" "YELLOW") :=
  ⟨(C10_annotate_total [] 5 "c" "YELLOW").1 rfl,
   (C10_annotate_total [Para.mk []] (-2) "c" "YELLOW").2.1 (by decide) (by left; decide),
   (C10_annotate_total [Para.mk []] 0 "c" "YELLOW").2.2.2 (by decide)⟩
